/-
Verification of the InfoBank voice-streaming front end.

This file shallowly embeds the audio I/O and turn-coordination engine of the
repository: the PCM conversion utilities (`src/FrontEnd/infoBank_Front/src/utils/audioUtils.ts`),
the websocket control-message helpers (`src/unnamed/part_005`, i.e.
`utils/webSocketUtils.ts`), the lip-sync analyzer
(`src/FrontEnd/infoBank_Front/src/components/Live2DAvatar/Live2DCanvas.jsx` and
`src/FrontEnd/infoBank_Front/src/utils/LiveAudioProcessor.ts`), and the
playback-queue / gating state machines of the two hook revisions
(`src/FrontEnd/infoBank_Front/src/hooks/useVoiceStreaming.tsx` and
`src/unnamed/part_011`).

JavaScript numbers are modelled as rationals. The verified properties do not
depend on double-precision rounding: the PCM scalings by powers of two are
exact in IEEE doubles, the decimal smoothing constants appear identically on
both sides of the compared definitions, and the remaining properties are
about NaN propagation, clamping ranges, and control flow. `Math.sqrt` /
`Math.pow(·, 0.5)` are kept as an explicit function parameter so that every
definition stays computable, and NaN-producing paths are modelled with
`Option ℚ` (`none` = NaN).
-/
import Mathlib

namespace InfoBank

/-! ## audioUtils.ts -/

/-- `convertPCMToFloat32`, per sample: `float32Data[i] = pcmData[i] / 32768.0`.
The division of a 16-bit integer by the power of two 32768 is exact in
IEEE single and double precision, so ℚ is a faithful model. -/
def convertPCMToFloat32Sample (s : ℤ) : ℚ :=
  (s : ℚ) / 32768

/-- `convertFloat32ToPCM`, per sample:
`pcmData[i] = Math.max(-32768, Math.min(32767, Math.floor(float32Data[i] * 32767)))`. -/
def convertFloat32ToPCMSample (x : ℚ) : ℤ :=
  max (-32768) (min 32767 ⌊x * 32767⌋)

/-- `convertPCMToFloat32` over a whole buffer (the source loops over the array). -/
def convertPCMToFloat32 (pcmData : List ℤ) : List ℚ :=
  pcmData.map convertPCMToFloat32Sample

/-- `convertFloat32ToPCM` over a whole buffer (the source loops over the array). -/
def convertFloat32ToPCM (float32Data : List ℚ) : List ℤ :=
  float32Data.map convertFloat32ToPCMSample

/-! ## webSocketUtils.ts (src/unnamed/part_005) -/

/-- The `WebSocketResponse` interface, restricted to the fields
`processResponseStatus` and `isInterruptionSignal` read. Absent JSON fields
are `none`. -/
structure WebSocketResponse where
  control : Option String
  action : Option String
  message : Option String
  deriving DecidableEq, Repr

/-- JavaScript `a || b` for an optional string field: the empty string is
falsy, so both an absent field and an empty one fall back to the default. -/
def jsOrElse (m : Option String) (dflt : String) : String :=
  match m with
  | none => dflt
  | some s => if s = "" then dflt else s

/-- Result record of `processResponseStatus`. -/
structure ResponseStatusResult where
  isStartProcessing : Bool
  isEndProcessing : Bool
  message : String
  deriving DecidableEq, Repr

/-- `processResponseStatus` from webSocketUtils.ts: recognizes
`control = 'response_status'` with `action = 'start_processing'` or
`'end_processing'`; the message falls back to a fixed Korean default via
`data.message || '...'`. -/
def processResponseStatus (data : WebSocketResponse) : ResponseStatusResult :=
  if data.control = some "response_status" then
    if data.action = some "start_processing" then
      { isStartProcessing := true, isEndProcessing := false
        message := jsOrElse data.message "AI가 응답 중입니다..." }
    else if data.action = some "end_processing" then
      { isStartProcessing := false, isEndProcessing := true
        message := jsOrElse data.message "말씀하세요..." }
    else
      { isStartProcessing := false, isEndProcessing := false, message := "" }
  else
    { isStartProcessing := false, isEndProcessing := false, message := "" }

/-- `isInterruptionSignal` from webSocketUtils.ts. -/
def isInterruptionSignal (data : WebSocketResponse) : Bool :=
  data.control = some "interruption"

/-! ## Live2DCanvas.jsx — `updateLipSync`

The analyser buffer is a `Uint8Array` of time-domain bytes; `Math.sqrt` is
passed in as an explicit parameter `sqrt` so the definition stays computable.
The mouth-form parameter uses `Math.random()` and is outside the scope of the
lip-sync value, so it is not modelled. -/

/-- The raw (pre-smoothing) lip-sync value of one animation tick, from the
`isAudioPlaying` branch of `updateLipSync`: normalize each byte via
`(amplitude / 128.0) - 1.0`, accumulate squares, take
`rms = Math.sqrt(sumSquares / length)`, and map with
`Math.min(1.0, rms * 5.0)`. -/
def lipSyncRaw (sqrt : ℚ → ℚ) (buf : List ℕ) : ℚ :=
  let sumSquares : ℚ := (buf.map (fun (b : ℕ) => ((b : ℚ) / 128 - 1) ^ 2)).sum
  let rms := sqrt (sumSquares / (buf.length : ℚ))
  min 1 (rms * 5)

/-- One tick of `updateLipSync`, as `(valueToSet, new currentLipSyncValueRef)`.
While audio is playing the raw value is smoothed with
`cur * 0.65 + raw * (1 - 0.65)` and the smoothed value is both stored and
applied; otherwise both the output and the stored smoothing state are 0. -/
def updateLipSync (sqrt : ℚ → ℚ) (isAudioPlaying : Bool) (buf : List ℕ)
    (prev : ℚ) : ℚ × ℚ :=
  if isAudioPlaying then
    let raw := lipSyncRaw sqrt buf
    let smoothed := prev * (65 / 100) + raw * (35 / 100)
    (smoothed, smoothed)
  else
    (0, 0)

/-- Modelled from the spec sentence of C8, word for word, for comparison with
`updateLipSync`: "normalizing each sampled byte b in [0,255] to (b/128)-1,
taking RMS = sqrt(mean of squares), mapping to min(1, RMS*5.0), and
exponentially smoothing as new = old*0.65 + raw*0.35; and on every tick while
nothing is playing, the output is forced to 0 and the stored smoothing state
is reset to 0". -/
def lipSyncClaimed (sqrt : ℚ → ℚ) (isPlaying : Bool) (buf : List ℕ)
    (old : ℚ) : ℚ × ℚ :=
  if isPlaying then
    let meanOfSquares : ℚ :=
      (buf.map (fun (b : ℕ) => ((b : ℚ) / 128 - 1) ^ 2)).sum / (buf.length : ℚ)
    let rms := sqrt meanOfSquares
    let raw := min 1 (rms * (5 : ℚ))
    let new := old * (65 / 100) + raw * (35 / 100)
    (new, new)
  else
    (0, 0)

/-! ## LiveAudioProcessor.ts — `processAudioData`

JavaScript doubles that can be NaN are modelled as `Option ℚ` (`none` = NaN).
The only non-finite value reachable in this method is `0/0 = NaN` (an empty
buffer gives `sum = 0`, `samples = 0`), so `jsDiv` maps a zero denominator to
`none`. `Math.sqrt` and `Math.pow(·, 0.5)` return NaN on NaN or negative
input and otherwise apply the square root, kept abstract as `sqrt`. -/

/-- NaN-propagating addition. -/
def jsAdd : Option ℚ → Option ℚ → Option ℚ
  | some a, some b => some (a + b)
  | _, _ => none

/-- NaN-propagating multiplication. -/
def jsMul : Option ℚ → Option ℚ → Option ℚ
  | some a, some b => some (a * b)
  | _, _ => none

/-- NaN-propagating division; a zero denominator yields `none` (the reachable
case in `processAudioData` is `0/0`, which is NaN in JavaScript). -/
def jsDiv : Option ℚ → Option ℚ → Option ℚ
  | some a, some b => if b = 0 then none else some (a / b)
  | _, _ => none

/-- `Math.min`: NaN if either argument is NaN. -/
def jsMin : Option ℚ → Option ℚ → Option ℚ
  | some a, some b => some (min a b)
  | _, _ => none

/-- `Math.max`: NaN if either argument is NaN. -/
def jsMax : Option ℚ → Option ℚ → Option ℚ
  | some a, some b => some (max a b)
  | _, _ => none

/-- `Math.sqrt` and `Math.pow(x, 0.5)`: NaN on NaN or negative input,
otherwise the square root (the abstract parameter `sqrt`). -/
def jsSqrt (sqrt : ℚ → ℚ) : Option ℚ → Option ℚ
  | some a => if 0 ≤ a then some (sqrt a) else none
  | none => none

/-- One little-endian signed 16-bit read, `dataView.getInt16(2*i, true)`:
`none` models the `RangeError` thrown on an out-of-bounds read. -/
def getInt16 (bytes : List ℕ) (i : ℕ) : Option ℤ :=
  match bytes[2 * i]?, bytes[2 * i + 1]? with
  | some lo, some hi =>
    let v : ℤ := lo + 256 * hi
    some (if v < 32768 then v else v - 65536)
  | _, _ => none

/-- The sample loop of `processAudioData`: `for (i = 0; i < samples; i++)`
with `samples = audioData.length / 2` a JS rational, so the loop body runs
`⌈length / 2⌉` times; on an odd-length buffer the final read throws
(`none`). Accumulates `sum += sample * sample`. -/
def sumSquaresPCM (bytes : List ℕ) : ℕ → Option ℤ
  | 0 => some 0
  | n + 1 =>
    match sumSquaresPCM bytes n, getInt16 bytes n with
    | some acc, some s => some (acc + s * s)
    | _, _ => none

/-- `LiveAudioProcessor.processAudioData`, returning
`(return value, new _lastAudioValue)`, each `none` when NaN. Returns 0 and
leaves the smoothing state unchanged when `_audioContext` is absent or the
loop throws (the `catch` branch); otherwise computes
`rms = sqrt(sum / samples)`, `normalized = min(1, rms / 32768)`, the smoothed
state `last * 0.15 + normalized * 0.85`, `mapped = pow(smoothed, 0.5)`, and
clamps with `max(0, min(1, mapped))`. -/
def processAudioData (sqrt : ℚ → ℚ) (ctxPresent : Bool) (lastAudioValue : Option ℚ)
    (bytes : List ℕ) : Option ℚ × Option ℚ :=
  if !ctxPresent then (some 0, lastAudioValue)
  else
    match sumSquaresPCM bytes ((bytes.length + 1) / 2) with
    | none => (some 0, lastAudioValue)
    | some sum =>
      let samples : ℚ := (bytes.length : ℚ) / 2
      let rms := jsSqrt sqrt (jsDiv (some (sum : ℚ)) (some samples))
      let normalized := jsMin (some 1) (jsDiv rms (some 32768))
      let newLast := jsAdd (jsMul lastAudioValue (some (15 / 100)))
        (jsMul normalized (some (85 / 100)))
      let mapped := jsSqrt sqrt newLast
      let clamped := jsMax (some 0) (jsMin (some 1) mapped)
      (clamped, newLast)

/-! ## The playback-queue / gating engine of useVoiceStreaming.tsx

The hook is single-threaded and event-driven; we model it as a small-step
machine. A step is one synchronous run-to-completion segment of JavaScript:
a websocket message handler, an `onended` callback resuming the awaited
`playAudioChunk` promise (which synchronously continues the
`processAudioQueue` loop until it suspends on the next `await`, errors, or
drains), or a `setTimeout` callback firing. -/

/-- An inbound binary audio frame. `samples` is `byteLength / 2` as computed
by `playAudioChunk` (a frame with `samples = 0` resolves immediately without
creating a source node); `ok` abstracts the environment: whether
`playAudioChunk` succeeds for this frame (`false` models its rejection —
AudioContext unavailable / failed resume / an exception while decoding). -/
structure Frame where
  id : ℕ
  samples : ℕ
  ok : Bool
  deriving DecidableEq, Repr

/-- Observable actions emitted by a step. -/
inductive Obs where
  | start (f : Frame)              -- `sourceNode.start()` for frame f
  | finish (f : Frame)             -- f's `onended` fired and its promise resolved
  | skipEmpty (f : Frame)          -- empty frame resolved without playing
  | errFrame (f : Frame)           -- `playAudioChunk` rejected on f
  | drained                        -- the drain loop exited with an empty queue
  | gateCallImmediate (m : String) -- gate-enable helper invoked from the idle enable branch
  | gateCallAtDrain (m : String)   -- gate-enable helper invoked by the queue-drain handler
  | gateApplied (m : String)       -- the 300 ms settle timer fired; capture became live
  | hardStop (f : Frame)           -- `node.stop()` issued by the interruption handler
  deriving DecidableEq, Repr

/-- State of the useVoiceStreaming.tsx hook (the fields the claims depend on).
`current` is the frame whose source node is playing, i.e. whose
`playAudioChunk` promise the drain loop is awaiting; `timers` are the
pending 300 ms `setTimeout` callbacks of `enableResponseProcessing`, oldest
first. -/
structure FState where
  queue : List Frame            -- audioQueueRef.current
  playing : Bool                -- isPlayingRef.current
  current : Option Frame        -- the awaited source node, if any
  pendingEnable : Bool          -- pendingResponseEnableRef.current
  pendingMsg : String           -- pendingResponseMessageRef.current
  responseProcessing : Bool     -- isResponseProcessing (the gating state)
  emotion : String              -- currentEmotion
  timers : List String          -- pending enableResponseProcessing timeouts
  audioStream : Bool            -- audioStreamRef.current is non-null
  deriving DecidableEq, Repr

/-- The `finally` block of `processAudioQueue`: reset the playing flag, clear
the audio UI state, reset the emotion to the neutral default, and — if an
end-of-response was latched — call `enableResponseProcessing`, which
schedules the 300 ms settle timer when the audio stream is present. -/
def drainFinally (s : FState) : FState × List Obs :=
  let s1 := { s with playing := false, emotion := "중립" }
  if s1.pendingEnable then
    if s1.audioStream then
      ({ s1 with timers := s1.timers ++ [s1.pendingMsg] },
        [Obs.gateCallAtDrain s1.pendingMsg])
    else (s1, [])
  else (s1, [])

/-- The `while` loop of `processAudioQueue`, entered with `isPlayingRef`
already true and the awaited promise resolved: shift the head frame; on
rejection the error propagates to the outer catch and the `finally` runs
with the remaining frames still queued; an empty frame resolves
immediately and the loop continues; otherwise the frame starts playing and
the loop suspends awaiting its `onended`. An empty queue reaches the
`finally` normally. -/
def loopF (s : FState) : List Frame → FState × List Obs
  | [] => drainFinally { s with queue := [] }
  | f :: rest =>
    if f.ok then
      if f.samples = 0 then
        let r := loopF s rest
        (r.1, Obs.skipEmpty f :: r.2)
      else
        ({ s with queue := rest, current := some f, playing := true }, [Obs.start f])
    else
      let r := drainFinally { s with queue := rest }
      (r.1, Obs.errFrame f :: r.2)

/-- `processAudioQueue` entry: a no-op when already playing or the queue is
empty, otherwise set the playing flag and run the loop. -/
def processQ (s : FState) : FState × List Obs :=
  if s.playing ∨ s.queue = [] then (s, [])
  else loopF { s with playing := true } s.queue

/-- External events delivered to the hook. -/
inductive FEvent where
  | recv (f : Frame)                  -- a binary websocket message
  | ended                             -- the playing source node's onended fired
  | startProcessing (m : Option String) -- response_status / start_processing
  | endProcessing (m : Option String)   -- response_status / end_processing
  | interruption                      -- control = interruption
  | emotionResult (e : String)        -- type = emotion_result
  | timerFire                         -- the oldest pending settle timer fired
  deriving DecidableEq, Repr

/-- One step of the useVoiceStreaming.tsx hook. -/
def stepF (s : FState) : FEvent → FState × List Obs
  | FEvent.recv f => processQ { s with queue := s.queue ++ [f] }
  | FEvent.ended =>
    match s.current with
    | none => (s, [])
    | some f =>
      let r := loopF { s with current := none } s.queue
      (r.1, Obs.finish f :: r.2)
  | FEvent.startProcessing _ => ({ s with responseProcessing := true }, [])
  | FEvent.endProcessing m =>
    let msg := jsOrElse m "말씀하세요..."
    let s1 := { s with pendingEnable := true, pendingMsg := msg }
    if s1.queue = [] ∧ s1.playing = false then
      if s1.audioStream then
        ({ s1 with timers := s1.timers ++ [msg] }, [Obs.gateCallImmediate msg])
      else (s1, [])
    else (s1, [])
  | FEvent.interruption =>
    ({ s with queue := [], emotion := "중립" },
      match s.current with
      | some f => [Obs.hardStop f]
      | none => [])
  | FEvent.emotionResult e => ({ s with emotion := e }, [])
  | FEvent.timerFire =>
    match s.timers with
    | [] => (s, [])
    | m :: rest =>
      if s.audioStream then
        ({ s with timers := rest, responseProcessing := false, pendingEnable := false },
          [Obs.gateApplied m])
      else ({ s with timers := rest, pendingEnable := false }, [])

/-- Run a list of events. -/
def runF : FState → List FEvent → FState × List Obs
  | s, [] => (s, [])
  | s, e :: evs =>
    let r1 := stepF s e
    let r2 := runF r1.1 evs
    (r2.1, r1.2 ++ r2.2)

/-- The hook's initial state (all refs at their initial values, with an
active capture stream). -/
def initF : FState :=
  { queue := [], playing := false, current := none, pendingEnable := false
    pendingMsg := "", responseProcessing := false, emotion := "중립"
    timers := [], audioStream := true }

/-- The frames started (in order) in a trace. -/
def startsOf (tr : List Obs) : List Frame :=
  tr.filterMap fun o =>
    match o with
    | Obs.start f => some f
    | _ => none

/-- The frames received (in order) in an event list. -/
def arrivalsOf (evs : List FEvent) : List Frame :=
  evs.filterMap fun e =>
    match e with
    | FEvent.recv f => some f
    | _ => none

/-- Scan a trace tracking which frame is playing: `none` when the trace is
ill-nested — a frame starts while another is still playing, or a completion
does not match the playing frame. A `some` result is the open frame after
the trace. -/
def openAfter : Option Frame → List Obs → Option (Option Frame)
  | cur, [] => some cur
  | cur, o :: os =>
    match o with
    | Obs.start f =>
      match cur with
      | none => openAfter (some f) os
      | some _ => none
    | Obs.finish f =>
      match cur with
      | some g => if f = g then openAfter none os else none
      | none => none
    | _ => openAfter cur os

/-! ### Invariants of the playback queue (claim C1) -/

/-- Events within the scope of C1: inbound frames that are playable
(`playAudioChunk` succeeds, nonzero length) and playback completions. -/
def C1Ev (e : FEvent) : Prop :=
  (∃ f, e = FEvent.recv f ∧ f.ok = true ∧ 0 < f.samples) ∨ e = FEvent.ended

/-- Reachability invariant of the hook state: the playing flag tracks whether
a source node is awaited; when nothing is playing the queue has been fully
drained; queued frames are playable. -/
def FInv (s : FState) : Prop :=
  s.playing = s.current.isSome ∧ (s.current = none → s.queue = []) ∧
    ∀ f ∈ s.queue, f.ok = true ∧ 0 < f.samples

theorem startsOf_append (t1 t2 : List Obs) :
    startsOf (t1 ++ t2) = startsOf t1 ++ startsOf t2 := by
  simp [startsOf, List.filterMap_append]

theorem openAfter_append (c : Option Frame) (t1 t2 : List Obs) (c1 : Option Frame)
    (h : openAfter c t1 = some c1) :
    openAfter c (t1 ++ t2) = openAfter c1 t2 := by
  induction t1 generalizing c with
  | nil => simp [openAfter] at h; subst h; rfl
  | cons o os ih =>
    cases o with
    | start f =>
      cases c with
      | none => exact ih (some f) h
      | some g => simp [openAfter] at h
    | finish f =>
      cases c with
      | none => simp [openAfter] at h
      | some g =>
        by_cases hfg : f = g
        · simp only [openAfter, hfg, if_pos rfl] at h ⊢
          exact ih none h
        · simp [openAfter, hfg] at h
    | skipEmpty f => exact ih c h
    | errFrame f => exact ih c h
    | drained => exact ih c h
    | gateCallImmediate m => exact ih c h
    | gateCallAtDrain m => exact ih c h
    | gateApplied m => exact ih c h
    | hardStop f => exact ih c h

theorem drainFinally_spec (s : FState) :
    (drainFinally s).1.queue = s.queue ∧ (drainFinally s).1.current = s.current ∧
    (drainFinally s).1.playing = false ∧ startsOf (drainFinally s).2 = [] ∧
    ∀ c, openAfter c (drainFinally s).2 = some c := by
  simp only [drainFinally]
  split_ifs <;> simp [startsOf, openAfter]

theorem processQ_of_playing (s : FState) (hp : s.playing = true) :
    processQ s = (s, []) := by
  simp [processQ, hp]

theorem processQ_of_idle (s : FState) (hp : s.playing = false)
    (hq : s.queue ≠ []) :
    processQ s = loopF { s with playing := true } s.queue := by
  simp [processQ, hp, hq]

theorem runF_cons (s : FState) (e : FEvent) (evs : List FEvent) :
    runF s (e :: evs) =
      ((runF (stepF s e).1 evs).1, (stepF s e).2 ++ (runF (stepF s e).1 evs).2) := by
  simp [runF]

theorem arrivalsOf_cons (e : FEvent) (evs : List FEvent) :
    arrivalsOf (e :: evs) = arrivalsOf [e] ++ arrivalsOf evs := by
  cases e <;> simp [arrivalsOf, List.filterMap_cons]

theorem stepF_ok (s : FState) (e : FEvent) (hInv : FInv s) (he : C1Ev e) :
    FInv (stepF s e).1 ∧
    startsOf (stepF s e).2 ++ (stepF s e).1.queue = s.queue ++ arrivalsOf [e] ∧
    openAfter s.current (stepF s e).2 = some (stepF s e).1.current := by
  obtain ⟨q, pl, cur, pe, pm, rp, em, tm, st⟩ := s
  obtain ⟨hpl, hqe, hfr⟩ := hInv
  simp only [FInv] at hpl hqe hfr ⊢
  rcases he with ⟨f, rfl, hok, hpos⟩ | rfl
  · -- binary frame arrival
    have hs0 : f.samples ≠ 0 := Nat.pos_iff_ne_zero.mp hpos
    cases pl with
    | false =>
      have hcur : cur = none := by
        cases cur with
        | none => rfl
        | some g => simp at hpl
      subst hcur
      have hq0 : q = [] := hqe rfl
      subst hq0
      refine ⟨⟨?_, ?_, ?_⟩, ?_, ?_⟩ <;>
        simp [stepF, processQ, loopF, hok, hs0, startsOf, arrivalsOf, openAfter]
    | true =>
      obtain ⟨g, hg⟩ : ∃ g, cur = some g := by
        cases cur with
        | none => simp at hpl
        | some g => exact ⟨g, rfl⟩
      subst hg
      refine ⟨⟨?_, ?_, ?_⟩, ?_, ?_⟩ <;>
        simp [stepF, processQ, startsOf, arrivalsOf, openAfter]
      intro h hh
      rcases hh with h1 | h2
      · exact hfr h h1
      · subst h2; exact ⟨hok, hpos⟩
  · -- playback completion
    cases cur with
    | none =>
      exact ⟨⟨hpl, hqe, hfr⟩, by simp [stepF, startsOf, arrivalsOf],
        by simp [stepF, openAfter]⟩
    | some g =>
      cases q with
      | nil =>
        refine ⟨⟨?_, ?_, ?_⟩, ?_, ?_⟩ <;>
          (simp only [stepF, loopF, drainFinally]
           split_ifs <;> simp [startsOf, arrivalsOf, openAfter])
      | cons g2 rest =>
        obtain ⟨hok2, hpos2⟩ := hfr g2 (by simp)
        have hs2 : g2.samples ≠ 0 := Nat.pos_iff_ne_zero.mp hpos2
        refine ⟨⟨?_, ?_, ?_⟩, ?_, ?_⟩ <;>
          simp [stepF, loopF, hok2, hs2, startsOf, arrivalsOf, openAfter]
        intro h hh
        exact hfr h (List.mem_cons_of_mem g2 hh)

theorem runF_ok (evs : List FEvent) (s : FState) (hInv : FInv s)
    (he : ∀ e ∈ evs, C1Ev e) :
    FInv (runF s evs).1 ∧
    startsOf (runF s evs).2 ++ (runF s evs).1.queue = s.queue ++ arrivalsOf evs ∧
    openAfter s.current (runF s evs).2 = some (runF s evs).1.current := by
  induction evs generalizing s with
  | nil => exact ⟨hInv, by simp [runF, startsOf, arrivalsOf], by simp [runF, openAfter]⟩
  | cons e evs ih =>
    have h1 := stepF_ok s e hInv (he e (by simp))
    have h2 := ih (stepF s e).1 h1.1 (fun x hx => he x (List.mem_cons_of_mem e hx))
    rw [runF_cons]
    refine ⟨h2.1, ?_, ?_⟩
    · rw [startsOf_append, List.append_assoc, h2.2.1, ← List.append_assoc, h1.2.1,
        List.append_assoc, ← arrivalsOf_cons]
    · rw [openAfter_append s.current _ _ _ h1.2.2]
      exact h2.2.2

/-- C1: for every sequence of inbound binary audio frames (playable frames,
interleaved arbitrarily with playback-completion events), the engine starts
frames in exactly their arrival order — the started frames are a prefix of
the arrivals — and no two playback intervals overlap: the trace of
start/finish observations is well nested with at most one open frame, so a
frame starts only after the previous frame's completion signal. -/
theorem C1_playback_order_no_overlap (evs : List FEvent)
    (h : ∀ e ∈ evs, C1Ev e) :
    (∃ t, startsOf (runF initF evs).2 ++ t = arrivalsOf evs) ∧
    (openAfter none (runF initF evs).2).isSome = true := by
  have hInv : FInv initF := ⟨rfl, fun _ => rfl, fun f hf => absurd hf (List.not_mem_nil f)⟩
  have hr := runF_ok evs initF hInv h
  have h21 : startsOf (runF initF evs).2 ++ (runF initF evs).1.queue =
      [] ++ arrivalsOf evs := hr.2.1
  have h22 : openAfter none (runF initF evs).2 =
      some (runF initF evs).1.current := hr.2.2
  exact ⟨⟨(runF initF evs).1.queue, h21.trans (List.nil_append _)⟩,
    by rw [h22]; rfl⟩

/-- Witness for C1 at a concrete run: two playable frames arrive, the first
completes, then the second completes. -/
theorem C1_witness :
    (∃ t, startsOf (runF initF [FEvent.recv ⟨1, 4, true⟩, FEvent.recv ⟨2, 4, true⟩,
        FEvent.ended, FEvent.ended]).2 ++ t =
      arrivalsOf [FEvent.recv ⟨1, 4, true⟩, FEvent.recv ⟨2, 4, true⟩,
        FEvent.ended, FEvent.ended]) ∧
    (openAfter none (runF initF [FEvent.recv ⟨1, 4, true⟩, FEvent.recv ⟨2, 4, true⟩,
        FEvent.ended, FEvent.ended]).2).isSome = true :=
  C1_playback_order_no_overlap _ (by
    intro e he
    simp only [List.mem_cons, List.not_mem_nil, or_false] at he
    rcases he with rfl | rfl | rfl | rfl
    · exact Or.inl ⟨⟨1, 4, true⟩, rfl, rfl, by decide⟩
    · exact Or.inl ⟨⟨2, 4, true⟩, rfl, rfl, by decide⟩
    · exact Or.inr rfl
    · exact Or.inr rfl)

/-- Counterexample to C3 as stated: `start_processing` arrives (gating leaves
`Capturing`), a frame starts playing with a second frame queued, an
interruption arrives, and the stopped node's completion fires. The queue is
empty and nothing is playing — the interruption has fully settled — yet
`isResponseProcessing` is still `true` and no enable is pending or scheduled,
so the gating state has NOT returned to `Capturing`. -/
theorem C3_counterexample :
    (runF initF [FEvent.startProcessing none, FEvent.recv ⟨1, 4, true⟩,
        FEvent.recv ⟨2, 4, true⟩, FEvent.interruption, FEvent.ended]).1.queue = [] ∧
    (runF initF [FEvent.startProcessing none, FEvent.recv ⟨1, 4, true⟩,
        FEvent.recv ⟨2, 4, true⟩, FEvent.interruption, FEvent.ended]).1.current = none ∧
    (runF initF [FEvent.startProcessing none, FEvent.recv ⟨1, 4, true⟩,
        FEvent.recv ⟨2, 4, true⟩, FEvent.interruption, FEvent.ended]).1.playing = false ∧
    (runF initF [FEvent.startProcessing none, FEvent.recv ⟨1, 4, true⟩,
        FEvent.recv ⟨2, 4, true⟩, FEvent.interruption, FEvent.ended]).1.responseProcessing
      = true ∧
    (runF initF [FEvent.startProcessing none, FEvent.recv ⟨1, 4, true⟩,
        FEvent.recv ⟨2, 4, true⟩, FEvent.interruption, FEvent.ended]).1.pendingEnable
      = false ∧
    (runF initF [FEvent.startProcessing none, FEvent.recv ⟨1, 4, true⟩,
        FEvent.recv ⟨2, 4, true⟩, FEvent.interruption, FEvent.ended]).1.timers = [] := by
  decide

/-- C3 amended: on an `Interruption` control message the handler hard-stops
the currently playing frame, discards every queued frame leaving the queue
empty, resets the emotion indicator to the neutral default, and starts no new
frame; but it leaves the gating flags (`isResponseProcessing`,
`pendingResponseEnable`) untouched — the gate returns to capturing only if an
end-of-response enable was already latched, applied later by the drain
handler. -/
theorem C3_amended_interruption (s : FState) :
    (stepF s FEvent.interruption).1.queue = [] ∧
    (stepF s FEvent.interruption).1.emotion = "중립" ∧
    (stepF s FEvent.interruption).1.responseProcessing = s.responseProcessing ∧
    (stepF s FEvent.interruption).1.pendingEnable = s.pendingEnable ∧
    (stepF s FEvent.interruption).1.timers = s.timers ∧
    startsOf (stepF s FEvent.interruption).2 = [] ∧
    ∀ f, s.current = some f → (stepF s FEvent.interruption).2 = [Obs.hardStop f] := by
  obtain ⟨q, pl, cur, pe, pm, rp, em, tm, st⟩ := s
  refine ⟨rfl, rfl, rfl, rfl, rfl, ?_, ?_⟩
  · cases cur <;> simp [stepF, startsOf]
  · intro f hf
    simp only at hf
    subst hf
    rfl

/-- Witness for the inner implication of `C3_amended_interruption`: a state
that is playing frame 1 gets exactly one hard-stop observation. -/
theorem C3_amended_witness :
    (stepF ⟨[], true, some ⟨1, 4, true⟩, false, "", false, "중립", [], true⟩
        FEvent.interruption).2 = [Obs.hardStop ⟨1, 4, true⟩] :=
  (C3_amended_interruption _).2.2.2.2.2.2 ⟨1, 4, true⟩ rfl

/-- Counterexample to C4 as stated: frame 1 starts playing; a failing frame 2
and a playable frame 3 are queued behind it. When frame 1 completes, frame
2's rejection aborts the drain loop: frame 3 is never started (`startsOf`
contains only frame 1), remains in the queue, and nothing is playing — no
pending completion will ever resume it — contradicting "the remaining frames
are still played". -/
theorem C4_counterexample :
    startsOf (runF initF [FEvent.recv ⟨1, 4, true⟩, FEvent.recv ⟨2, 4, false⟩,
        FEvent.recv ⟨3, 4, true⟩, FEvent.ended]).2 = [⟨1, 4, true⟩] ∧
    (runF initF [FEvent.recv ⟨1, 4, true⟩, FEvent.recv ⟨2, 4, false⟩,
        FEvent.recv ⟨3, 4, true⟩, FEvent.ended]).1.queue = [⟨3, 4, true⟩] ∧
    (runF initF [FEvent.recv ⟨1, 4, true⟩, FEvent.recv ⟨2, 4, false⟩,
        FEvent.recv ⟨3, 4, true⟩, FEvent.ended]).1.current = none ∧
    (runF initF [FEvent.recv ⟨1, 4, true⟩, FEvent.recv ⟨2, 4, false⟩,
        FEvent.recv ⟨3, 4, true⟩, FEvent.ended]).1.playing = false := by
  decide

/-- C4 amended: a single-frame playback failure is caught (the hook does not
crash) and the failing frame is dropped with an error observation, but the
drain loop aborts: the frames queued behind the failing one stay in the
queue unstarted and the playing flag is reset; they are played only when a
later frame arrival re-triggers `processAudioQueue`, which then starts the
head of the queue. -/
theorem C4_amended_error_aborts_drain (s : FState) (g f : Frame)
    (rest : List Frame) (hcur : s.current = some g) (hq : s.queue = f :: rest)
    (hf : f.ok = false) :
    (stepF s FEvent.ended).1.queue = rest ∧
    (stepF s FEvent.ended).1.playing = false ∧
    (stepF s FEvent.ended).1.current = none ∧
    Obs.errFrame f ∈ (stepF s FEvent.ended).2 ∧
    startsOf (stepF s FEvent.ended).2 = [] ∧
    ∀ s2 : FState, ∀ f2 : Frame, s2.playing = false → s2.queue = [] →
      f2.ok = true → f2.samples ≠ 0 →
      (stepF s2 (FEvent.recv f2)).2 = [Obs.start f2] := by
  obtain ⟨q, pl, cur, pe, pm, rp, em, tm, st⟩ := s
  simp only at hcur hq
  subst hcur; subst hq
  have hd := drainFinally_spec ⟨rest, pl, none, pe, pm, rp, em, tm, st⟩
  have hstep : stepF ⟨f :: rest, pl, some g, pe, pm, rp, em, tm, st⟩ FEvent.ended
      = ((drainFinally ⟨rest, pl, none, pe, pm, rp, em, tm, st⟩).1,
         Obs.finish g :: Obs.errFrame f ::
           (drainFinally ⟨rest, pl, none, pe, pm, rp, em, tm, st⟩).2) := by
    simp [stepF, loopF, hf]
  rw [hstep]
  have hso : startsOf (Obs.finish g :: Obs.errFrame f ::
      (drainFinally ⟨rest, pl, none, pe, pm, rp, em, tm, st⟩).2) =
      startsOf (drainFinally ⟨rest, pl, none, pe, pm, rp, em, tm, st⟩).2 := by
    simp [startsOf]
  refine ⟨hd.1, hd.2.2.1, hd.2.1, by simp, hso.trans hd.2.2.2.1, ?_⟩
  intro s2 f2 hpl2 hq2 hok2 hs2
  obtain ⟨q2, pl2, cur2, pe2, pm2, rp2, em2, tm2, st2⟩ := s2
  simp only at hpl2 hq2
  subst hpl2; subst hq2
  simp [stepF, processQ, loopF, hok2, hs2]

/-- Witness for `C4_amended_error_aborts_drain` at a concrete state: frame 1
is playing with a failing frame 2 and a playable frame 3 queued. -/
theorem C4_amended_witness :
    (stepF ⟨[⟨2, 4, false⟩, ⟨3, 4, true⟩], true, some ⟨1, 4, true⟩, false, "",
        false, "중립", [], true⟩ FEvent.ended).1.queue = [⟨3, 4, true⟩] ∧
    (stepF ⟨[⟨2, 4, false⟩, ⟨3, 4, true⟩], true, some ⟨1, 4, true⟩, false, "",
        false, "중립", [], true⟩ FEvent.ended).1.playing = false ∧
    (stepF ⟨[⟨2, 4, false⟩, ⟨3, 4, true⟩], true, some ⟨1, 4, true⟩, false, "",
        false, "중립", [], true⟩ FEvent.ended).1.current = none ∧
    Obs.errFrame ⟨2, 4, false⟩ ∈ (stepF ⟨[⟨2, 4, false⟩, ⟨3, 4, true⟩], true,
        some ⟨1, 4, true⟩, false, "", false, "중립", [], true⟩ FEvent.ended).2 ∧
    startsOf (stepF ⟨[⟨2, 4, false⟩, ⟨3, 4, true⟩], true, some ⟨1, 4, true⟩,
        false, "", false, "중립", [], true⟩ FEvent.ended).2 = [] ∧
    ∀ s2 : FState, ∀ f2 : Frame, s2.playing = false → s2.queue = [] →
      f2.ok = true → f2.samples ≠ 0 →
      (stepF s2 (FEvent.recv f2)).2 = [Obs.start f2] :=
  C4_amended_error_aborts_drain _ ⟨1, 4, true⟩ ⟨2, 4, false⟩ [⟨3, 4, true⟩]
    rfl rfl rfl

/-! ## The playback-queue / mic-gating engine of src/unnamed/part_011

The earlier hook revision gates the microphone with `mic_status` control
messages (`pendingMicEnableRef`, `enableMicrophone`). Its drain loop differs
from the current revision: on a playback error it resets the playing flag and
returns at once, skipping the pending-enable check, and its queue-drain
handler is the only success exit. -/

/-- State of the part_011 hook. `micDisabled` is `isMicDisabled` — the code
that would set it `true` on a disable message is commented out in favour of
acoustic echo cancellation, so only the enable path ever writes it. -/
structure LState where
  queue : List Frame            -- audioQueueRef.current
  playing : Bool                -- isPlayingRef.current
  current : Option Frame        -- the awaited source node, if any
  pendingMicEnable : Bool       -- pendingMicEnableRef.current
  pendingMicMsg : String        -- pendingMicMessageRef.current
  micDisabled : Bool            -- isMicDisabled
  micStatusMessage : String     -- micStatusMessage
  timers : List String          -- pending enableMicrophone timeouts, oldest first
  audioStream : Bool            -- audioStreamRef.current is non-null
  deriving DecidableEq, Repr

/-- The success exit of part_011's `processAudioQueue`: the queue has fully
drained (`Obs.drained` is the QueueDrained event), the playing flag resets,
and a latched mic enable invokes `enableMicrophone`, which schedules its
300 ms timer when the stream is present. -/
def drainL (s : LState) : LState × List Obs :=
  let s1 := { s with playing := false }
  if s1.pendingMicEnable then
    if s1.audioStream then
      ({ s1 with timers := s1.timers ++ [s1.pendingMicMsg] },
        [Obs.drained, Obs.gateCallAtDrain s1.pendingMicMsg])
    else (s1, [Obs.drained])
  else (s1, [Obs.drained])

/-- The `while` loop of part_011's `processAudioQueue`. On a frame error it
resets the playing flag and returns immediately — the remaining frames stay
queued and the pending-enable check is skipped. -/
def loopL (s : LState) : List Frame → LState × List Obs
  | [] => drainL { s with queue := [] }
  | f :: rest =>
    if f.ok then
      if f.samples = 0 then
        let r := loopL s rest
        (r.1, Obs.skipEmpty f :: r.2)
      else
        ({ s with queue := rest, current := some f, playing := true }, [Obs.start f])
    else
      ({ s with queue := rest, playing := false }, [Obs.errFrame f])

/-- part_011's `processAudioQueue` entry. -/
def processQL (s : LState) : LState × List Obs :=
  if s.playing ∨ s.queue = [] then (s, [])
  else loopL { s with playing := true } s.queue

/-- External events delivered to the part_011 hook. This revision has no
interruption handling; `wsClosed` is the transport `onclose`, which calls
`stopAudioStream` (stop tracks, clear the queue, reset the playing flag). -/
inductive LEvent where
  | recv (f : Frame)             -- a binary websocket message
  | ended                        -- the playing source node's onended fired
  | micDisable (m : Option String) -- mic_status / disable
  | micEnable (m : Option String)  -- mic_status / enable
  | timerFire                    -- the oldest pending settle timer fired
  | wsClosed                     -- transport closed; stopAudioStream runs
  deriving DecidableEq, Repr

/-- One step of the part_011 hook. -/
def stepL (s : LState) : LEvent → LState × List Obs
  | LEvent.recv f => processQL { s with queue := s.queue ++ [f] }
  | LEvent.ended =>
    match s.current with
    | none => (s, [])
    | some f =>
      let r := loopL { s with current := none } s.queue
      (r.1, Obs.finish f :: r.2)
  | LEvent.micDisable m =>
    if s.audioStream then
      ({ s with micStatusMessage := jsOrElse m "AI가 응답 중입니다..." }, [])
    else (s, [])
  | LEvent.micEnable m =>
    let msg := jsOrElse m "말씀하세요..."
    let s1 := { s with pendingMicEnable := true, pendingMicMsg := msg }
    if s1.queue = [] ∧ s1.playing = false then
      if s1.audioStream then
        ({ s1 with timers := s1.timers ++ [msg] }, [Obs.gateCallImmediate msg])
      else (s1, [])
    else (s1, [])
  | LEvent.timerFire =>
    match s.timers with
    | [] => (s, [])
    | m :: rest =>
      if s.audioStream then
        ({ s with timers := rest, micDisabled := false, micStatusMessage := "", pendingMicEnable := false },
          [Obs.gateApplied m])
      else ({ s with timers := rest, pendingMicEnable := false }, [])
  | LEvent.wsClosed =>
    ({ s with queue := [], playing := false, audioStream := false }, [])

/-- Run a list of events on the part_011 hook. -/
def runL : LState → List LEvent → LState × List Obs
  | s, [] => (s, [])
  | s, e :: evs =>
    let r1 := stepL s e
    let r2 := runL r1.1 evs
    (r2.1, r1.2 ++ r2.2)

/-- Initial state of the part_011 hook with an active capture stream. -/
def initL : LState :=
  { queue := [], playing := false, current := none, pendingMicEnable := false
    pendingMicMsg := "", micDisabled := false, micStatusMessage := ""
    timers := [], audioStream := true }

def Obs.isDrainedObs : Obs → Bool
  | Obs.drained => true
  | _ => false

def Obs.isGateCallImmediate : Obs → Bool
  | Obs.gateCallImmediate _ => true
  | _ => false

def Obs.isGateApplied : Obs → Bool
  | Obs.gateApplied _ => true
  | _ => false

/-- No gate application occurs before the first QueueDrained event of the
trace (everything after the first `drained` is unconstrained). -/
def noApplyBeforeDrained : List Obs → Bool
  | [] => true
  | o :: os =>
    if o.isDrainedObs then true
    else !o.isGateApplied && noApplyBeforeDrained os

theorem runL_cons (s : LState) (e : LEvent) (evs : List LEvent) :
    runL s (e :: evs) =
      ((runL (stepL s e).1 evs).1, (stepL s e).2 ++ (runL (stepL s e).1 evs).2) := by
  simp [runL]

theorem noApplyBeforeDrained_cons_drained (o : Obs) (os : List Obs)
    (h : o.isDrainedObs = true) : noApplyBeforeDrained (o :: os) = true := by
  simp [noApplyBeforeDrained, h]

theorem noApplyBeforeDrained_cons_not (o : Obs) (os : List Obs)
    (h : o.isDrainedObs = false) :
    noApplyBeforeDrained (o :: os) = (!o.isGateApplied && noApplyBeforeDrained os) := by
  simp [noApplyBeforeDrained, h]

theorem noApplyBeforeDrained_append_of_drained (l1 l2 : List Obs)
    (h1 : noApplyBeforeDrained l1 = true)
    (h2 : l1.any Obs.isDrainedObs = true) :
    noApplyBeforeDrained (l1 ++ l2) = true := by
  induction l1 with
  | nil => simp at h2
  | cons o os ih =>
    cases ho : o.isDrainedObs with
    | true => rw [List.cons_append]; exact noApplyBeforeDrained_cons_drained _ _ ho
    | false =>
      rw [noApplyBeforeDrained_cons_not _ _ ho] at h1
      rw [List.cons_append, noApplyBeforeDrained_cons_not _ _ ho]
      simp only [Bool.and_eq_true] at h1 ⊢
      refine ⟨h1.1, ih h1.2 ?_⟩
      simpa [ho] using h2

theorem noApplyBeforeDrained_append_of_clean (l1 l2 : List Obs)
    (h1 : l1.all (fun o => !o.isDrainedObs && !o.isGateApplied) = true)
    (h2 : noApplyBeforeDrained l2 = true) :
    noApplyBeforeDrained (l1 ++ l2) = true := by
  induction l1 with
  | nil => simpa using h2
  | cons o os ih =>
    simp only [List.all_cons, Bool.and_eq_true, Bool.not_eq_true'] at h1
    rw [List.cons_append, noApplyBeforeDrained_cons_not _ _ h1.1.1]
    simp only [Bool.and_eq_true, Bool.not_eq_true']
    exact ⟨h1.1.2, ih h1.2⟩

theorem any_of_all_neg_false {α} (l : List α) (p : α → Bool)
    (h : l.all (fun o => !p o) = false) : l.any p = true := by
  rw [List.any_eq_true]
  by_contra hc
  push_neg at hc
  have hall : l.all (fun o => !p o) = true := by
    rw [List.all_eq_true]
    intro x hx
    cases hpx : p x with
    | false => rfl
    | true => exact absurd hpx (hc x hx)
  rw [hall] at h
  cases h

theorem loopL_gate (q : List Frame) (s : LState) :
    noApplyBeforeDrained (loopL s q).2 = true ∧
    (((loopL s q).2.all fun o => !o.isDrainedObs) = true →
      (loopL s q).1.timers = s.timers ∧
      ((loopL s q).2.all fun o => !o.isDrainedObs && !o.isGateApplied) = true) ∧
    ((loopL s q).2.all fun o => !o.isGateCallImmediate) = true := by
  induction q with
  | nil =>
    have heq : loopL s [] = drainL { s with queue := [] } := rfl
    rw [heq]
    simp only [drainL]
    split_ifs <;>
      exact ⟨rfl, by intro h; simp [Obs.isDrainedObs] at h,
        by simp [Obs.isGateCallImmediate]⟩
  | cons f rest ih =>
    by_cases hok : f.ok = true
    · by_cases hz : f.samples = 0
      · have heq : loopL s (f :: rest)
            = ((loopL s rest).1, Obs.skipEmpty f :: (loopL s rest).2) := by
          simp [loopL, hok, hz]
        rw [heq]
        refine ⟨?_, ?_, ?_⟩
        · rw [noApplyBeforeDrained_cons_not (Obs.skipEmpty f) _ rfl]
          simpa [Obs.isGateApplied] using ih.1
        · intro h
          rw [List.all_cons, Bool.and_eq_true] at h
          have h2 := ih.2.1 h.2
          refine ⟨h2.1, ?_⟩
          rw [List.all_cons, Bool.and_eq_true]
          exact ⟨by simp [Obs.isDrainedObs, Obs.isGateApplied], h2.2⟩
        · rw [List.all_cons, Bool.and_eq_true]
          exact ⟨by simp [Obs.isGateCallImmediate], ih.2.2⟩
      · have heq : loopL s (f :: rest)
            = ({ s with queue := rest, current := some f, playing := true },
               [Obs.start f]) := by
          simp [loopL, hok, hz]
        rw [heq]
        exact ⟨rfl, fun _ => ⟨rfl, by simp [Obs.isDrainedObs, Obs.isGateApplied]⟩,
          by simp [Obs.isGateCallImmediate]⟩
    · have hok' : f.ok = false := by
        cases hb : f.ok with
        | false => rfl
        | true => exact absurd hb hok
      have heq : loopL s (f :: rest)
          = ({ s with queue := rest, playing := false }, [Obs.errFrame f]) := by
        simp [loopL, hok']
      rw [heq]
      exact ⟨rfl, fun _ => ⟨rfl, by simp [Obs.isDrainedObs, Obs.isGateApplied]⟩,
        by simp [Obs.isGateCallImmediate]⟩

theorem stepL_gate (s : LState) (e : LEvent) (ht : s.timers = [])
    (himm : ((stepL s e).2.all fun o => !o.isGateCallImmediate) = true) :
    noApplyBeforeDrained (stepL s e).2 = true ∧
    (((stepL s e).2.all fun o => !o.isDrainedObs) = true →
      (stepL s e).1.timers = [] ∧
      ((stepL s e).2.all fun o => !o.isDrainedObs && !o.isGateApplied) = true) := by
  cases e with
  | recv f =>
    have heq : stepL s (LEvent.recv f)
        = processQL { s with queue := s.queue ++ [f] } := rfl
    rw [heq] at himm ⊢
    simp only [processQL] at himm ⊢
    split_ifs with hc
    · exact ⟨rfl, fun _ => ⟨ht, rfl⟩⟩
    · have h := loopL_gate ({ s with queue := s.queue ++ [f] }.queue)
        { { s with queue := s.queue ++ [f] } with playing := true }
      exact ⟨h.1, fun hd => ⟨(h.2.1 hd).1.trans ht, (h.2.1 hd).2⟩⟩
  | ended =>
    cases hcur : s.current with
    | none =>
      have heq : stepL s LEvent.ended = (s, []) := by simp [stepL, hcur]
      rw [heq]
      exact ⟨rfl, fun _ => ⟨ht, rfl⟩⟩
    | some f =>
      have heq : stepL s LEvent.ended
          = ((loopL { s with current := none } s.queue).1,
             Obs.finish f :: (loopL { s with current := none } s.queue).2) := by
        simp [stepL, hcur]
      rw [heq]
      have h := loopL_gate s.queue { s with current := none }
      refine ⟨?_, ?_⟩
      · rw [noApplyBeforeDrained_cons_not (Obs.finish f) _ rfl]
        simpa [Obs.isGateApplied] using h.1
      · intro hd
        rw [List.all_cons, Bool.and_eq_true] at hd
        have h2 := h.2.1 hd.2
        refine ⟨h2.1.trans ht, ?_⟩
        rw [List.all_cons, Bool.and_eq_true]
        exact ⟨by simp [Obs.isDrainedObs, Obs.isGateApplied], h2.2⟩
  | micDisable m =>
    have heq : stepL s (LEvent.micDisable m)
        = (if s.audioStream = true then
            ({ s with micStatusMessage := jsOrElse m "AI가 응답 중입니다..." }, [])
          else (s, [])) := rfl
    rw [heq]
    split_ifs <;> exact ⟨rfl, fun _ => ⟨ht, rfl⟩⟩
  | micEnable m =>
    have heq : stepL s (LEvent.micEnable m) = stepL s (LEvent.micEnable m) := rfl
    simp only [stepL] at himm ⊢
    split_ifs with h1 h2
    · rw [if_pos h1, if_pos h2] at himm
      simp [Obs.isGateCallImmediate] at himm
    · rw [if_pos h1, if_neg h2] at himm
      exact ⟨rfl, fun _ => ⟨ht, rfl⟩⟩
    · rw [if_neg h1] at himm
      exact ⟨rfl, fun _ => ⟨ht, rfl⟩⟩
  | timerFire =>
    have heq : stepL s LEvent.timerFire = (s, []) := by simp [stepL, ht]
    rw [heq]
    exact ⟨rfl, fun _ => ⟨ht, rfl⟩⟩
  | wsClosed =>
    exact ⟨rfl, fun _ => ⟨ht, rfl⟩⟩

theorem runL_gate (evs : List LEvent) (s : LState) (ht : s.timers = [])
    (himm : ((runL s evs).2.all fun o => !o.isGateCallImmediate) = true) :
    noApplyBeforeDrained (runL s evs).2 = true := by
  induction evs generalizing s with
  | nil => rfl
  | cons e evs ih =>
    rw [runL_cons] at himm ⊢
    rw [List.all_append, Bool.and_eq_true] at himm
    have hs := stepL_gate s e ht himm.1
    cases hd : ((stepL s e).2.all fun o => !o.isDrainedObs) with
    | true =>
      obtain ⟨ht', hclean⟩ := hs.2 hd
      exact noApplyBeforeDrained_append_of_clean _ _ hclean (ih _ ht' himm.2)
    | false =>
      exact noApplyBeforeDrained_append_of_drained _ _ hs.1
        (any_of_all_neg_false _ _ hd)

/-- C2: in every run of the mic-gating hook in which each `MicGate(enable)`
arrives while the queue is non-empty or a frame is playing (no
`gateCallImmediate` observation — the idle branch of the enable handler is
the only other way to invoke `enableMicrophone`), the gate is never applied
(capture never becomes live) before the first QueueDrained event: the enable
stays latched in `pendingMicEnableRef` and only the queue-drain handler (or a
later idle enable) can schedule its application. -/
theorem C2_enable_latched_until_drained (evs : List LEvent)
    (himm : ((runL initL evs).2.all fun o => !o.isGateCallImmediate) = true) :
    noApplyBeforeDrained (runL initL evs).2 = true :=
  runL_gate evs initL rfl himm

/-- Witness for C2: `MicGate(disable)`, two frames queue up, `MicGate(enable)`
arrives while frame 1 is playing, both frames complete (QueueDrained fires and
schedules the settle timer), and the timer applies the enable. -/
theorem C2_witness :
    (((runL initL [LEvent.micDisable none, LEvent.recv ⟨1, 4, true⟩,
        LEvent.recv ⟨2, 4, true⟩, LEvent.micEnable none, LEvent.ended,
        LEvent.ended, LEvent.timerFire]).2.all fun o => !o.isGateCallImmediate)
      = true) ∧
    noApplyBeforeDrained (runL initL [LEvent.micDisable none,
      LEvent.recv ⟨1, 4, true⟩, LEvent.recv ⟨2, 4, true⟩, LEvent.micEnable none,
      LEvent.ended, LEvent.ended, LEvent.timerFire]).2 = true :=
  ⟨by decide, C2_enable_latched_until_drained _ (by decide)⟩

/-- C5: when a `MicGate(enable)` control message arrives while the playback
queue is empty and nothing is playing (and the capture stream is present,
with no settle timer already pending), the enable branch invokes
`enableMicrophone` immediately in the same handler step — no QueueDrained
event is needed — scheduling the settle timer, and the very next timer tick
makes capture live (`isMicDisabled := false`, pending flag cleared). -/
theorem C5_idle_enable_applies_immediately (s : LState) (m : Option String)
    (hq : s.queue = []) (hp : s.playing = false) (hst : s.audioStream = true)
    (ht : s.timers = []) :
    (stepL s (LEvent.micEnable m)).2
      = [Obs.gateCallImmediate (jsOrElse m "말씀하세요...")] ∧
    (stepL s (LEvent.micEnable m)).1.timers = [jsOrElse m "말씀하세요..."] ∧
    (stepL (stepL s (LEvent.micEnable m)).1 LEvent.timerFire).2
      = [Obs.gateApplied (jsOrElse m "말씀하세요...")] ∧
    (stepL (stepL s (LEvent.micEnable m)).1 LEvent.timerFire).1.micDisabled
      = false ∧
    (stepL (stepL s (LEvent.micEnable m)).1 LEvent.timerFire).1.pendingMicEnable
      = false := by
  obtain ⟨q, pl, cur, pe, pm, md, ms, tm, st⟩ := s
  simp only at hq hp hst ht
  subst hq; subst hp; subst hst; subst ht
  refine ⟨rfl, rfl, rfl, rfl, rfl⟩

/-- Witness for C5 at the initial (idle) state. -/
theorem C5_witness :
    (stepL initL (LEvent.micEnable (some "go"))).2
      = [Obs.gateCallImmediate "go"] ∧
    (stepL initL (LEvent.micEnable (some "go"))).1.timers = ["go"] ∧
    (stepL (stepL initL (LEvent.micEnable (some "go"))).1 LEvent.timerFire).2
      = [Obs.gateApplied "go"] ∧
    (stepL (stepL initL (LEvent.micEnable (some "go"))).1
        LEvent.timerFire).1.micDisabled = false ∧
    (stepL (stepL initL (LEvent.micEnable (some "go"))).1
        LEvent.timerFire).1.pendingMicEnable = false :=
  C5_idle_enable_applies_immediately initL (some "go") rfl rfl rfl rfl

/-! ## Teardown: stopRecording / stopAudioStream (useVoiceStreaming.tsx)

`stopRecording` sends a "disconnect" text frame and schedules the actual
`ws.close` on a 100 ms timer when the socket is open; otherwise it falls back
to `stopAudioStream`, which stops the microphone tracks, disconnects the
script processor, clears the queue and playing flag, and resets the audio
context state (`clearAudio`). -/

/-- The websocket handle as `stopRecording` observes it: absent
(`webSocketRef.current === null`), or its `readyState`. -/
inductive WSState where
  | noRef
  | wsOpen
  | wsClosing
  | wsClosed
  deriving DecidableEq, Repr

/-- Side effects of the teardown functions. -/
inductive Eff where
  | recorderStop    -- mediaRecorder.stop()
  | trackStop       -- stream.getTracks().forEach(stop)
  | procDisconnect  -- audioProcessor.disconnect()
  | sendDisconnect  -- ws.send("disconnect")
  | scheduleClose   -- the 100 ms close timeout registered
  | wsClose         -- ws.close(1000, ...) invoked
  | clearAudioEff   -- clearAudio() called on the audio context provider
  deriving DecidableEq, Repr

/-- Resources and flags touched by teardown. -/
structure SState where
  recorderRecording : Bool  -- mediaRecorderRef.current?.state === 'recording'
  recorderPresent : Bool    -- mediaRecorderRef.current is non-null
  ws : WSState
  stream : Bool             -- audioStreamRef.current is non-null
  processor : Bool          -- audioProcessorRef.current is non-null
  queue : List Frame        -- audioQueueRef.current
  playing : Bool            -- isPlayingRef.current
  closeTimers : ℕ           -- pending 100 ms close timeouts
  isRecording : Bool
  deriving DecidableEq, Repr

/-- `stopAudioStream`: stop and null the stream, disconnect and null the
processor, clear the queue and playing flag, call `clearAudio`. -/
def stopAudioStream (s : SState) : SState × List Eff :=
  let r1 := if s.stream then ({ s with stream := false }, [Eff.trackStop])
            else (s, ([] : List Eff))
  let r2 := if r1.1.processor then
              ({ r1.1 with processor := false }, [Eff.procDisconnect])
            else (r1.1, ([] : List Eff))
  ({ r2.1 with queue := [], playing := false },
    r1.2 ++ r2.2 ++ [Eff.clearAudioEff])

/-- `stopRecording`: stop a recording recorder; if the socket is open, send
"disconnect" and schedule the real close 100 ms later, otherwise clean the
stream immediately; reset the recording flag and null the recorder ref. -/
def stopRecording (s : SState) : SState × List Eff :=
  let r1 := if s.recorderRecording then
              ({ s with recorderRecording := false }, [Eff.recorderStop])
            else (s, ([] : List Eff))
  let r2 := if r1.1.ws = WSState.wsOpen then
              ({ r1.1 with closeTimers := r1.1.closeTimers + 1 },
                [Eff.sendDisconnect, Eff.scheduleClose])
            else stopAudioStream r1.1
  ({ r2.1 with isRecording := false, recorderPresent := false }, r1.2 ++ r2.2)

/-- One pending 100 ms close timeout fires: close the socket only if it is
still open. -/
def closeTimerFire (s : SState) : SState × List Eff :=
  match s.closeTimers with
  | 0 => (s, [])
  | n + 1 =>
    if s.ws = WSState.wsOpen then
      ({ s with closeTimers := n, ws := WSState.wsClosing }, [Eff.wsClose])
    else ({ s with closeTimers := n }, [])

/-- Counterexample to C6 as stated: in a state where the websocket is open
(the normal recording state), a second `stopRecording` issued in succession
— before the 100 ms close timer has fired — is NOT a no-op: it sends a
second "disconnect" frame and schedules a second close timer. -/
theorem C6_counterexample :
    Eff.sendDisconnect ∈ (stopRecording (stopRecording
      ⟨false, false, WSState.wsOpen, true, true, [], false, 0, true⟩).1).2 ∧
    (stopRecording (stopRecording
      ⟨false, false, WSState.wsOpen, true, true, [], false, 0, true⟩).1).1.closeTimers
      = 2 ∧
    (stopRecording (stopRecording
        ⟨false, false, WSState.wsOpen, true, true, [], false, 0, true⟩).1).1 ≠
      (stopRecording
        ⟨false, false, WSState.wsOpen, true, true, [], false, 0, true⟩).1 := by
  decide

/-- C6 amended: `stopAudioStream` is idempotent — the second call observes the
already-nulled references, leaves the state unchanged, and emits only the
idempotent `clearAudio` reset, so microphone tracks and the processor node
are released at most once across repeated calls; `stopRecording` is likewise
a state no-op the second time whenever the websocket is not open, and the
actual `ws.close` fires at most once however many close timers run; but a
second `stopRecording` while the socket is still open re-sends the
disconnect signal (the behaviour refuted in the counterexample). -/
theorem C6_amended_stop_idempotent (s : SState) :
    ((stopAudioStream (stopAudioStream s).1).1 = (stopAudioStream s).1 ∧
      (stopAudioStream (stopAudioStream s).1).2 = [Eff.clearAudioEff]) ∧
    ((stopAudioStream s).2.count Eff.trackStop ≤ 1 ∧
      (stopAudioStream s).2.count Eff.procDisconnect ≤ 1) ∧
    (s.ws ≠ WSState.wsOpen →
      (stopRecording (stopRecording s).1).1 = (stopRecording s).1 ∧
      (stopRecording (stopRecording s).1).2 = [Eff.clearAudioEff]) ∧
    ((closeTimerFire s).2 ++ (closeTimerFire (closeTimerFire s).1).2).count
        Eff.wsClose ≤ 1 := by
  obtain ⟨rr, rp, ws, st, pr, q, pl, ct, ir⟩ := s
  refine ⟨?_, ?_, ?_, ?_⟩
  · cases st <;> cases pr <;> simp [stopAudioStream]
  · cases st <;> cases pr <;> simp [stopAudioStream]
  · intro hws
    simp only at hws
    cases rr <;> cases st <;> cases pr <;>
      simp [stopRecording, stopAudioStream, hws]
  · cases ct with
    | zero => simp [closeTimerFire]
    | succ n =>
      cases hws : ws <;> cases n <;>
        simp [closeTimerFire, hws]

/-- Witness for `C6_amended_stop_idempotent` at a concrete closed-socket
state with all resources live. -/
theorem C6_amended_witness :
    (stopRecording (stopRecording
        ⟨true, true, WSState.wsClosed, true, true, [⟨1, 4, true⟩], true, 0, true⟩).1).1
      = (stopRecording
        ⟨true, true, WSState.wsClosed, true, true, [⟨1, 4, true⟩], true, 0, true⟩).1 ∧
    (stopRecording (stopRecording
        ⟨true, true, WSState.wsClosed, true, true, [⟨1, 4, true⟩], true, 0, true⟩).1).2
      = [Eff.clearAudioEff] :=
  (C6_amended_stop_idempotent
    ⟨true, true, WSState.wsClosed, true, true, [⟨1, 4, true⟩], true, 0, true⟩).2.2.1
    (by decide)

/-! ## Claims on the pure audio and message utilities -/

/-- C7: every 16-bit PCM sample round-trips through
`convertPCMToFloat32` then `convertFloat32ToPCM` to within ±1 LSB, and the
float-to-PCM conversion saturates — its output lies in [-32768, 32767] for
every input, never wrapping. -/
theorem C7_pcm_roundtrip (s : ℤ) (h1 : -32768 ≤ s) (h2 : s ≤ 32767) :
    |convertFloat32ToPCMSample (convertPCMToFloat32Sample s) - s| ≤ 1 ∧
    ∀ x : ℚ, -32768 ≤ convertFloat32ToPCMSample x ∧
      convertFloat32ToPCMSample x ≤ 32767 := by
  constructor
  · have hs2 : ((s : ℚ)) ≤ 32767 := by exact_mod_cast h2
    have hs1 : ((-32768 : ℚ)) ≤ (s : ℚ) := by exact_mod_cast h1
    have hx1 : (s : ℚ) - 1 ≤ (s : ℚ) / 32768 * 32767 := by
      rw [div_mul_eq_mul_div, le_div_iff₀ (by norm_num : (0 : ℚ) < 32768)]
      nlinarith
    have hx2 : (s : ℚ) / 32768 * 32767 ≤ (s : ℚ) + 1 := by
      rw [div_mul_eq_mul_div, div_le_iff₀ (by norm_num : (0 : ℚ) < 32768)]
      nlinarith
    have hf1 : s - 1 ≤ ⌊(s : ℚ) / 32768 * 32767⌋ := by
      apply Int.le_floor.mpr
      push_cast
      exact hx1
    have hf2 : ⌊(s : ℚ) / 32768 * 32767⌋ ≤ s + 1 := by
      have := (Int.floor_le ((s : ℚ) / 32768 * 32767)).trans hx2
      exact_mod_cast this
    rw [convertFloat32ToPCMSample, convertPCMToFloat32Sample, abs_le]
    constructor <;> omega
  · intro x
    exact ⟨le_max_left _ _, max_le (by norm_num) (min_le_left _ _)⟩

/-- Witness for C7 at the extreme sample 32767 (which round-trips to 32766,
within the allowed ±1). -/
theorem C7_witness :
    |convertFloat32ToPCMSample (convertPCMToFloat32Sample 32767) - 32767| ≤ 1 :=
  (C7_pcm_roundtrip 32767 (by decide) (by decide)).1

/-- C8: the lip-sync value computed by `updateLipSync` on every animation
tick coincides with the spec formula `lipSyncClaimed` — normalize bytes as
(b/128)-1, RMS of the mean of squares, map with min(1, RMS·5.0), smooth with
new = old·0.65 + raw·0.35 while playing; force output and smoothing state to
0 while idle — and an all-128-byte buffer produces raw value 0 before
smoothing (given that the square root of 0 is 0). -/
theorem C8_lipsync_formula (sqrt : ℚ → ℚ) (hs : sqrt 0 = 0) (playing : Bool)
    (buf : List ℕ) (prev : ℚ) (n : ℕ) (hn : 0 < n) :
    updateLipSync sqrt playing buf prev = lipSyncClaimed sqrt playing buf prev ∧
    lipSyncRaw sqrt (List.replicate n 128) = 0 := by
  constructor
  · rfl
  · have hm : (List.replicate n (128 : ℕ)).map (fun (b : ℕ) => ((b : ℚ) / 128 - 1) ^ 2)
        = List.replicate n 0 := by
      rw [List.map_replicate]
      norm_num
    rw [lipSyncRaw, hm, List.sum_replicate, smul_zero, zero_div, hs]
    norm_num

/-- Witness for C8 with the identity function standing in for the square
root, a playing tick on a two-byte buffer, and a length-3 silent buffer. -/
theorem C8_witness :
    updateLipSync (fun q => q) true [0, 255] (1 / 2)
      = lipSyncClaimed (fun q => q) true [0, 255] (1 / 2) ∧
    lipSyncRaw (fun q => q) (List.replicate 3 128) = 0 :=
  C8_lipsync_formula (fun q => q) rfl true [0, 255] (1 / 2) 3 (by decide)

/-- C9: `processResponseStatus` never sets both flags; for an unrecognized
message both flags are false and the message is empty; for a recognized
`response_status` start/end message the returned status message is never
empty (an absent — or empty, by JavaScript `||` — `message` field falls back
to a fixed non-empty default); and that default is the fixed Korean prompt of
the corresponding action when the `message` field is absent. -/
theorem C9_response_status (d : WebSocketResponse) :
    ¬((processResponseStatus d).isStartProcessing = true ∧
      (processResponseStatus d).isEndProcessing = true) ∧
    (¬(d.control = some "response_status" ∧
        (d.action = some "start_processing" ∨ d.action = some "end_processing")) →
      (processResponseStatus d).isStartProcessing = false ∧
      (processResponseStatus d).isEndProcessing = false ∧
      (processResponseStatus d).message = "") ∧
    ((d.control = some "response_status" ∧
        (d.action = some "start_processing" ∨ d.action = some "end_processing")) →
      (processResponseStatus d).message ≠ "") ∧
    ((d.control = some "response_status" ∧ d.action = some "start_processing" ∧
        d.message = none) →
      (processResponseStatus d).message = "AI가 응답 중입니다...") ∧
    ((d.control = some "response_status" ∧ d.action = some "end_processing" ∧
        d.message = none) →
      (processResponseStatus d).message = "말씀하세요...") := by
  have hjs : ∀ (m : Option String) (dflt : String), dflt ≠ "" →
      jsOrElse m dflt ≠ "" := by
    intro m dflt hd
    cases m with
    | none => exact hd
    | some t =>
      rw [jsOrElse]
      split_ifs with ht
      · exact hd
      · exact ht
  rw [processResponseStatus]
  split_ifs with h1 h2 h3
  · refine ⟨by simp, by simp [h1, h2], fun _ => hjs _ _ (by decide), ?_, ?_⟩
    · intro hc; rw [hc.2.2]; rfl
    · intro hc; rw [hc.2.1] at h2; exact absurd h2 (by decide)
  · refine ⟨by simp, by simp [h1, h3], fun _ => hjs _ _ (by decide), ?_, ?_⟩
    · intro hc; exact absurd hc.2.1 h2
    · intro hc; rw [hc.2.2]; rfl
  · refine ⟨by simp, fun _ => ⟨rfl, rfl, rfl⟩, by simp [h2, h3], ?_, ?_⟩
    · intro hc; exact absurd hc.2.1 h2
    · intro hc; exact absurd hc.2.1 h3
  · refine ⟨by simp, fun _ => ⟨rfl, rfl, rfl⟩, by simp [h1], ?_, ?_⟩
    · intro hc; exact absurd hc.1 h1
    · intro hc; exact absurd hc.1 h1

/-- Witness for C9's recognized-message branch: an `end_processing` message
without a `message` field carries the non-empty default. -/
theorem C9_witness :
    (processResponseStatus
      ⟨some "response_status", some "end_processing", none⟩).message ≠ "" :=
  (C9_response_status ⟨some "response_status", some "end_processing", none⟩).2.2.1
    ⟨rfl, Or.inr rfl⟩

/-- C10 (the code diverges from the claim at the empty buffer):
`processAudioData` applied to the empty `Uint8Array` computes
`rms = sqrt(0/0) = NaN`, and the NaN propagates through min/smoothing/clamp,
so the call returns NaN — outside [0,1] — and corrupts the stored smoothing
state to NaN; whereas an absent audio context returns 0 as claimed, and an
odd-length buffer's out-of-range 16-bit read is caught, returning 0 without
a throw. -/
theorem C10_empty_buffer_nan (sqrt : ℚ → ℚ) (last : Option ℚ)
    (bytes : List ℕ) :
    processAudioData sqrt true (some 0) [] = (none, none) ∧
    processAudioData sqrt false last bytes = (some 0, last) ∧
    processAudioData sqrt true (some 0) [7] = (some 0, some 0) := by
  refine ⟨?_, ?_, ?_⟩
  · simp [processAudioData, sumSquaresPCM, jsDiv, jsSqrt, jsMin, jsMax, jsAdd, jsMul]
  · rw [processAudioData]
    rfl
  · simp [processAudioData, sumSquaresPCM, getInt16]

end InfoBank
